import Mathlib

/-!
# Shallow embedding of the PEX reactor (`src/p2p/pex_reactor.go`)

This file embeds the data model and operations of the peer-exchange (PEX)
reactor: the message codec (`DecodeMessage`), the per-peer rate limiter
(`IncrementMsgCountForPeer`, `ReachedMaxMsgCountForPeer`), the message
entry point (`Receive`), the peer-add hook (`AddPeer`), the periodic
maintenance pass (`ensurePeers`), and lifecycle startup (`OnStart`).

Conventions of the embedding:
* Go `uint16` counters are `Nat` reduced modulo `2 ^ 16` where the source
  performs `count++`.
* Go `int` quantities that the source may drive negative (`numToDial`) are
  `Int`; counts returned by `Switch.NumPeers()` are `Nat`.
* Side effects on the collaborators (address book, switch, peer send
  queues) are reified as a `List PexEffect` returned by each operation.
* Fallible or panicking code paths are explicit constructors of outcome
  types (`DecodeOutcome`, `ReceiveOutcome`): a Go runtime panic (e.g. an
  out-of-range slice index) is `panicked`, never silently absorbed.
-/

/-- Go `p2p.ID`, a string type alias identifying a peer. -/
abbrev ID := String

/-- `NetAddress`: peer identity plus network location. Compared by `id`
for de-duplication (`toDial` is keyed by `try.ID` in the source). -/
structure NetAddress where
  id : ID
  ip : String
  port : Nat
deriving DecidableEq, Repr

/-- The closed PEX message union: `pexRequestMessage` (empty payload) and
`pexAddrsMessage` (Go `Addrs []*NetAddress`; a nil pointer entry is
`Option.none`). -/
inductive PexMessage where
  | pexRequestMessage : PexMessage
  | pexAddrsMessage (Addrs : List (Option NetAddress)) : PexMessage
deriving DecidableEq, Repr

/-- `minNumOutboundPeers = 10` from the constant block of the source. -/
def minNumOutboundPeers : Nat := 10

/-- `maxPexMessageSize = 1048576` (1 MiB) from the constant block. -/
def maxPexMessageSize : Nat := 1048576

/-- `defaultMaxMsgCountByPeer = 1000` from the constant block. -/
def defaultMaxMsgCountByPeer : Nat := 1000

/-- Wire discriminant `msgTypeRequest = byte(0x01)`. -/
def msgTypeRequest : Nat := 0x01

/-- Wire discriminant `msgTypeAddrs = byte(0x02)`. -/
def msgTypeAddrs : Nat := 0x02

/-- Modelled from the spec: the go-wire payload deserializer internals
(`wire.ReadBinary`) live in the external go-wire library, not in `src/`.
The spec (section 4.2, section 6) fixes only that byte 0 is the
discriminant and the remaining bytes are the variant payload, decoded
exhaustively with structural malformation reported as a decode error.
We model the payload with a concrete executable format: a
length-prefixed byte string. Reads `n` bytes into a string, returning
the string and the remaining input, or `none` if the input is short. -/
def readByteString : Nat → List Nat → Option (String × List Nat)
  | 0, rest => some ("", rest)
  | _ + 1, [] => none
  | n + 1, b :: rest =>
    (readByteString n rest).map fun p => (String.mk (Char.ofNat b :: p.1.data), p.2)

/-- Modelled from the spec: a string field is one length byte followed by
that many character bytes. -/
def readString : List Nat → Option (String × List Nat)
  | [] => none
  | n :: rest => readByteString n rest

/-- Modelled from the spec: a port is two big-endian bytes. -/
def readPort : List Nat → Option (Nat × List Nat)
  | hi :: lo :: rest => some (hi * 256 + lo, rest)
  | _ => none

/-- Modelled from the spec: a serialized `NetAddress` is its `id` string,
`ip` string and port, in order. -/
def readNetAddress (bz : List Nat) : Option (NetAddress × List Nat) := do
  let (i, bz) ← readString bz
  let (ip, bz) ← readString bz
  let (port, bz) ← readPort bz
  return (⟨i, ip, port⟩, bz)

/-- Modelled from the spec: a `*NetAddress` entry is a nil marker `0x00`
or a presence marker `0x01` followed by the address; anything else is
malformed. -/
def readOptNetAddress : List Nat → Option (Option NetAddress × List Nat)
  | [] => none
  | 0 :: rest => some (none, rest)
  | 1 :: rest => (readNetAddress rest).map fun p => (some p.1, p.2)
  | _ => none

/-- Modelled from the spec: reads `n` consecutive `*NetAddress` entries. -/
def readAddrsList : Nat → List Nat → Option (List (Option NetAddress) × List Nat)
  | 0, rest => some ([], rest)
  | n + 1, bz => do
    let (a, bz) ← readOptNetAddress bz
    let (rest, bz) ← readAddrsList n bz
    return (a :: rest, bz)

/-- Modelled from the spec: the `pexAddrsMessage` payload is a count byte
followed by that many `*NetAddress` entries. -/
def decodeAddrsPayload (bz : List Nat) : Option (List (Option NetAddress)) :=
  match bz with
  | [] => none
  | n :: rest => (readAddrsList n rest).map Prod.fst

/-- Outcome of `DecodeMessage`. The source returns `(msgType, msg, err)`;
callers consult only `msg` and `err`, so we fuse the triple into one
outcome, and we surface a Go runtime panic as `panicked`. -/
inductive DecodeOutcome where
  | panicked : DecodeOutcome
  | errored : DecodeOutcome
  | decoded (msgType : Nat) (msg : PexMessage) : DecodeOutcome
deriving DecidableEq, Repr

/-- `DecodeMessage` from the source. The source reads `msgType = bz[0]`
first — on empty input this is an out-of-range index, a Go panic — and
then hands the whole buffer to `wire.ReadBinary` with limit
`maxPexMessageSize`. The `ReadBinary` half is modelled from the spec
(section 4.2): oversized input is rejected before any decoding work, the
tag byte is matched exhaustively against the two registered
discriminants, any other tag is a hard decode error, and a structurally
malformed payload is a decode error. -/
def DecodeMessage (bz : List Nat) : DecodeOutcome :=
  match bz with
  | [] => DecodeOutcome.panicked
  | b :: rest =>
    if maxPexMessageSize < (b :: rest).length then DecodeOutcome.errored
    else if b = msgTypeRequest then DecodeOutcome.decoded b PexMessage.pexRequestMessage
    else if b = msgTypeAddrs then
      match decodeAddrsPayload rest with
      | some addrs => DecodeOutcome.decoded b (PexMessage.pexAddrsMessage addrs)
      | none => DecodeOutcome.errored
    else DecodeOutcome.errored

/-- A live peer handle as the reactor sees it: its self-reported address
(`p.NodeInfo().NetAddress()`) and its direction (`p.IsOutbound()`). -/
structure Peer where
  netAddress : NetAddress
  isOutbound : Bool
deriving DecidableEq, Repr

/-- A side effect on a collaborator, reified. `send` is
`p.Send(PexChannel, msg)` to the peer with the given id; `addAddress` is
`book.AddAddress(addr, source)`; `dialPeer` is the spawned
`Switch.DialPeerWithAddress(picked, false)`; `dialSeeds` is
`Switch.DialPeersAsync(book, seeds, false)`. -/
inductive PexEffect where
  | send (dest : ID) (msg : PexMessage) : PexEffect
  | addAddress (addr source : NetAddress) : PexEffect
  | dialPeer (addr : NetAddress) : PexEffect
  | dialSeeds (seeds : List String) : PexEffect
deriving DecidableEq, Repr

/-- The mutable state of `PEXReactor` that the embedded operations read
and write: the `msgCountByPeer` CMap (keyed by the peer-id string, with
`uint16` values) and the `maxMsgCountByPeer` threshold (`uint16`). -/
structure PEXReactor where
  msgCountByPeer : ID → Option Nat
  maxMsgCountByPeer : Nat

/-- `IncrementMsgCountForPeer` from the source: read the CMap entry
(zero when absent), `count++` in `uint16` arithmetic, and store it back
under the peer's id. -/
def IncrementMsgCountForPeer (r : PEXReactor) (peerID : ID) : PEXReactor :=
  let count : Nat :=
    match r.msgCountByPeer peerID with
    | some c => c
    | none => 0
  let count := (count + 1) % 65536
  { r with msgCountByPeer := fun k => if k = peerID then some count else r.msgCountByPeer k }

/-- `ReachedMaxMsgCountForPeer` from the source:
`r.msgCountByPeer.Get(string(peerID)).(uint16) >= r.maxMsgCountByPeer`.
The type assertion on a `nil` entry is a Go panic, modelled by `none`;
the source's NOTE says it assumes a non-nil entry, which holds at its
only call site (directly after the increment). -/
def ReachedMaxMsgCountForPeer (r : PEXReactor) (peerID : ID) : Option Bool :=
  (r.msgCountByPeer peerID).map fun count => decide (r.maxMsgCountByPeer ≤ count)

/-- Outcome of one `Receive` call: rate-limit drop, decode panic, decode
error, or a successfully dispatched message. -/
inductive ReceiveOutcome where
  | panicked : ReceiveOutcome
  | dropped : ReceiveOutcome
  | decodeFailed : ReceiveOutcome
  | handled : ReceiveOutcome
deriving DecidableEq, Repr

/-- `Receive` from the source. `getSelection` is the value
`book.GetSelection()` would return for the reply to a request. Returns
the reactor state after the call, the effects on the collaborators, and
the outcome. The source's `default` branch of the dispatch switch is
unrepresentable here because the modelled codec only ever yields the two
registered variants. -/
def Receive (r : PEXReactor) (getSelection : List (Option NetAddress)) (src : Peer)
    (msgBytes : List Nat) : PEXReactor × List PexEffect × ReceiveOutcome :=
  let srcAddr := src.netAddress
  let r := IncrementMsgCountForPeer r srcAddr.id
  match ReachedMaxMsgCountForPeer r srcAddr.id with
  | none => (r, [], ReceiveOutcome.panicked)
  | some true => (r, [], ReceiveOutcome.dropped)
  | some false =>
    match DecodeMessage msgBytes with
    | DecodeOutcome.panicked => (r, [], ReceiveOutcome.panicked)
    | DecodeOutcome.errored => (r, [], ReceiveOutcome.decodeFailed)
    | DecodeOutcome.decoded _ msg =>
      match msg with
      | PexMessage.pexRequestMessage =>
        (r, [PexEffect.send srcAddr.id (PexMessage.pexAddrsMessage getSelection)],
          ReceiveOutcome.handled)
      | PexMessage.pexAddrsMessage addrs =>
        (r, addrs.filterMap (Option.map fun netAddr => PexEffect.addAddress netAddr srcAddr),
          ReceiveOutcome.handled)

/-- `k` consecutive `Receive` calls with the same sender, payload and
selection, keeping only the evolving reactor state. -/
def receiveIter (getSelection : List (Option NetAddress)) (src : Peer) (msgBytes : List Nat) :
    Nat → PEXReactor → PEXReactor
  | 0, r => r
  | k + 1, r => (Receive (receiveIter getSelection src msgBytes k r) getSelection src msgBytes).1

/-- `AddPeer` from the source. `needMoreAddrs` is the value
`book.NeedMoreAddrs()` would return. Outbound peer: send it a request if
the book needs addresses, otherwise do nothing. Inbound peer: register
its self-reported address with itself as source. -/
def AddPeer (needMoreAddrs : Bool) (p : Peer) : List PexEffect :=
  if p.isOutbound then
    if needMoreAddrs then [PexEffect.send p.netAddress.id PexMessage.pexRequestMessage]
    else []
  else
    let addr := p.netAddress
    [PexEffect.addAddress addr addr]

/-- `cmn.MinInt` from the tmlibs common package, as used at the bias
computation. -/
def MinInt (a b : Int) : Int :=
  if a < b then a else b

/-- The bias computed by `ensurePeers`:
`newBias := cmn.MinInt(numOutPeers, 8)*10 + 10`. -/
def newBias (numOutPeers : Int) : Int :=
  MinInt numOutPeers 8 * 10 + 10

/-- The reactor's view of the switch (connection manager) during one
`ensurePeers` pass: the three counts from `NumPeers()`, the
`IsDialing` and `Peers().Has` predicates, and `Peers().List()`. -/
structure SwitchView where
  numOutPeers : Nat
  numInPeers : Nat
  numDialing : Nat
  isDialing : ID → Bool
  peersHas : ID → Bool
  peersList : List Peer

/-- The reactor's view of the address book during one `ensurePeers`
pass: `pickAddress bias i` is what the `i`-th call (zero-based) to
`book.PickAddress(bias)` would return, and `needMoreAddrs` is
`book.NeedMoreAddrs()`. -/
structure BookView where
  pickAddress : Int → Nat → Option NetAddress
  needMoreAddrs : Bool

/-- The candidate-selection loop of `ensurePeers`:
`for i := 0; i < maxAttempts && len(toDial) < numToDial; i++`, rejecting
a draw that is nil, already selected this round (by id), already being
dialed, or already connected; an accepted draw is appended to `toDial`.
`fuel` is the number of remaining attempts (`maxAttempts - i`). -/
def pickLoop (pick : Nat → Option NetAddress) (isDialing connected : ID → Bool)
    (numToDial : Int) : Nat → Nat → List NetAddress → List NetAddress
  | _, 0, toDial => toDial
  | i, fuel + 1, toDial =>
    if (toDial.length : Int) < numToDial then
      match pick i with
      | none => pickLoop pick isDialing connected numToDial (i + 1) fuel toDial
      | some t =>
        if toDial.any fun a => decide (a.id = t.id) then
          pickLoop pick isDialing connected numToDial (i + 1) fuel toDial
        else if isDialing t.id then
          pickLoop pick isDialing connected numToDial (i + 1) fuel toDial
        else if connected t.id then
          pickLoop pick isDialing connected numToDial (i + 1) fuel toDial
        else
          pickLoop pick isDialing connected numToDial (i + 1) fuel (toDial ++ [t])
    else toDial

/-- The `toDial` set built by one `ensurePeers` pass:
`maxAttempts := numToDial * 3` draws starting from `i = 0` and an empty
set. -/
def ensurePeersToDial (pick : Nat → Option NetAddress) (isDialing connected : ID → Bool)
    (numToDial : Int) : List NetAddress :=
  pickLoop pick isDialing connected numToDial 0 (numToDial * 3).toNat []

/-- `ensurePeers` from the source, one pass. `randInt` is the value
`rand.Int()` would return for the random-peer pick. Effects preserve the
source's phases: dial the picked addresses, possibly send one request to
a random connected peer, possibly fall back to dialing the seeds. -/
def ensurePeers (sw : SwitchView) (book : BookView) (seeds : List String)
    (randInt : Nat) : List PexEffect :=
  let numToDial : Int :=
    (minNumOutboundPeers : Int) - ((sw.numOutPeers : Int) + (sw.numDialing : Int))
  if numToDial ≤ 0 then []
  else
    let toDial :=
      ensurePeersToDial (book.pickAddress (newBias (sw.numOutPeers : Int)))
        sw.isDialing sw.peersHas numToDial
    let dialEffects := toDial.map PexEffect.dialPeer
    let requestEffects :=
      if book.needMoreAddrs then
        match sw.peersList[randInt % sw.peersList.length]? with
        | some peer => [PexEffect.send peer.netAddress.id PexMessage.pexRequestMessage]
        | none => []
      else []
    let seedEffects :=
      if sw.numOutPeers + sw.numInPeers + sw.numDialing + toDial.length = 0 then
        [PexEffect.dialSeeds seeds]
      else []
    dialEffects ++ requestEffects ++ seedEffects

/-- Recognizes the seed-dial effect `Switch.DialPeersAsync(...)`. -/
def isDialSeedsEffect : PexEffect → Bool
  | PexEffect.dialSeeds _ => true
  | _ => false

/-- An error returned by a `cmn.BaseService` start: the distinguished
`cmn.ErrAlreadyStarted`, or any other error (carrying its message). -/
inductive ServiceError where
  | alreadyStarted : ServiceError
  | other (msg : String) : ServiceError
deriving DecidableEq, Repr

/-- `OnStart` from the source. `baseStart` is the result of
`r.BaseReactor.OnStart()` and `bookStart` the result of
`r.book.Start()` (`none` meaning a nil error). On success the reactor
spawns `ensurePeersRoutine` and `flushMsgCountByPeer`; the returned pair
records that both goroutines were spawned. -/
def OnStart (baseStart : Option ServiceError) (bookStart : Option ServiceError) :
    Except ServiceError (Bool × Bool) :=
  match baseStart with
  | some err => Except.error err
  | none =>
    match bookStart with
    | some err =>
      if err = ServiceError.alreadyStarted then Except.ok (true, true)
      else Except.error err
    | none => Except.ok (true, true)

/-! ## Helper lemmas about the rate limiter and `Receive` -/

theorem incrementMsgCount_self (r : PEXReactor) (peerID : ID) :
    (IncrementMsgCountForPeer r peerID).msgCountByPeer peerID =
      some (((r.msgCountByPeer peerID).getD 0 + 1) % 65536) := by
  cases h : r.msgCountByPeer peerID <;>
    simp [IncrementMsgCountForPeer, h]

theorem incrementMsgCount_other (r : PEXReactor) (peerID k : ID) (h : k ≠ peerID) :
    (IncrementMsgCountForPeer r peerID).msgCountByPeer k = r.msgCountByPeer k := by
  cases hc : r.msgCountByPeer peerID <;>
    simp [IncrementMsgCountForPeer, hc, h]

theorem incrementMsgCount_max (r : PEXReactor) (peerID : ID) :
    (IncrementMsgCountForPeer r peerID).maxMsgCountByPeer = r.maxMsgCountByPeer := by
  cases hc : r.msgCountByPeer peerID <;> simp [IncrementMsgCountForPeer]

theorem reachedMax_after_increment (r : PEXReactor) (peerID : ID) :
    ReachedMaxMsgCountForPeer (IncrementMsgCountForPeer r peerID) peerID =
      some (decide (r.maxMsgCountByPeer ≤ ((r.msgCountByPeer peerID).getD 0 + 1) % 65536)) := by
  simp [ReachedMaxMsgCountForPeer, incrementMsgCount_self, incrementMsgCount_max]

theorem Receive_fst (r : PEXReactor) (sel : List (Option NetAddress)) (src : Peer)
    (bz : List Nat) :
    (Receive r sel src bz).1 = IncrementMsgCountForPeer r src.netAddress.id := by
  unfold Receive
  dsimp only
  split <;> first | rfl | (split <;> first | rfl | (split <;> rfl))

theorem Receive_snd (r : PEXReactor) (sel : List (Option NetAddress)) (src : Peer)
    (bz : List Nat) :
    (Receive r sel src bz).2 =
      if r.maxMsgCountByPeer ≤ ((r.msgCountByPeer src.netAddress.id).getD 0 + 1) % 65536 then
        ([], ReceiveOutcome.dropped)
      else
        match DecodeMessage bz with
        | DecodeOutcome.panicked => ([], ReceiveOutcome.panicked)
        | DecodeOutcome.errored => ([], ReceiveOutcome.decodeFailed)
        | DecodeOutcome.decoded _ PexMessage.pexRequestMessage =>
          ([PexEffect.send src.netAddress.id (PexMessage.pexAddrsMessage sel)],
            ReceiveOutcome.handled)
        | DecodeOutcome.decoded _ (PexMessage.pexAddrsMessage addrs) =>
          (addrs.filterMap (Option.map fun a => PexEffect.addAddress a src.netAddress),
            ReceiveOutcome.handled) := by
  unfold Receive
  dsimp only
  rw [reachedMax_after_increment]
  by_cases h : r.maxMsgCountByPeer ≤ ((r.msgCountByPeer src.netAddress.id).getD 0 + 1) % 65536
  · rw [decide_eq_true h, if_pos h]
  · rw [decide_eq_false h, if_neg h]
    cases hdec : DecodeMessage bz with
    | panicked => rfl
    | errored => rfl
    | decoded t msg => cases msg <;> rfl

theorem receiveIter_max (sel : List (Option NetAddress)) (src : Peer) (bz : List Nat)
    (k : Nat) (r : PEXReactor) :
    (receiveIter sel src bz k r).maxMsgCountByPeer = r.maxMsgCountByPeer := by
  induction k with
  | zero => rfl
  | succ k ih =>
    rw [receiveIter, Receive_fst, incrementMsgCount_max, ih]

theorem receiveIter_other (sel : List (Option NetAddress)) (src : Peer) (bz : List Nat)
    (k : Nat) (r : PEXReactor) (peerID : ID) (h : peerID ≠ src.netAddress.id) :
    (receiveIter sel src bz k r).msgCountByPeer peerID = r.msgCountByPeer peerID := by
  induction k with
  | zero => rfl
  | succ k ih =>
    rw [receiveIter, Receive_fst, incrementMsgCount_other _ _ _ h, ih]

theorem receiveIter_count (sel : List (Option NetAddress)) (src : Peer) (bz : List Nat)
    (r : PEXReactor) (h0 : r.msgCountByPeer src.netAddress.id = none) :
    ∀ k, k ≤ 65535 →
      (receiveIter sel src bz k r).msgCountByPeer src.netAddress.id =
        if k = 0 then none else some k := by
  intro k
  induction k with
  | zero => intro _; simpa using h0
  | succ k ih =>
    intro hk
    rw [receiveIter, Receive_fst, incrementMsgCount_self, ih (by omega)]
    cases k with
    | zero => simp
    | succ k =>
      have : k + 1 + 1 < 65536 := by omega
      simp [Nat.mod_eq_of_lt this]

theorem receiveIter_getD (sel : List (Option NetAddress)) (src : Peer) (bz : List Nat)
    (r0 : PEXReactor) (h0 : r0.msgCountByPeer src.netAddress.id = none)
    (k : Nat) (hk : k ≤ 65535) :
    ((receiveIter sel src bz k r0).msgCountByPeer src.netAddress.id).getD 0 = k := by
  rw [receiveIter_count sel src bz r0 h0 k hk]
  cases k <;> simp

/-! ## Claim theorems -/

/-- C10 (counterexample): the claim says every `Receive` call increments
the sender's counter by exactly 1. The counter is a Go `uint16`:
at a stored count of 65535, `count++` wraps to 0, not 65536. -/
theorem Receive_counter_wrap_counterexample :
    (Receive (⟨fun k => if k = "a" then some 65535 else none, 1000⟩ : PEXReactor) []
        ⟨⟨"a", "h", 1⟩, true⟩ [1]).1.msgCountByPeer "a" = some 0 ∧
      some 0 ≠ some (65535 + 1) := by
  constructor
  · rfl
  · decide

/-- C10 (amended): every `Receive` call sets the sender's counter to
`(old + 1) % 2 ^ 16` — which is `old + 1` whenever that does not
overflow `uint16` — and leaves every other peer's counter unchanged,
regardless of the outcome (dropped, malformed, or handled). -/
theorem Receive_counter_increment (r : PEXReactor) (sel : List (Option NetAddress))
    (src : Peer) (bz : List Nat) :
    (Receive r sel src bz).1.msgCountByPeer src.netAddress.id =
      some (((r.msgCountByPeer src.netAddress.id).getD 0 + 1) % 65536) ∧
    (∀ k, k ≠ src.netAddress.id →
      (Receive r sel src bz).1.msgCountByPeer k = r.msgCountByPeer k) ∧
    (∀ c, r.msgCountByPeer src.netAddress.id = some c → c + 1 < 65536 →
      (Receive r sel src bz).1.msgCountByPeer src.netAddress.id = some (c + 1)) := by
  refine ⟨?_, ?_, ?_⟩
  · rw [Receive_fst, incrementMsgCount_self]
  · intro k hk
    rw [Receive_fst, incrementMsgCount_other _ _ _ hk]
  · intro c hc hlt
    rw [Receive_fst, incrementMsgCount_self, hc]
    simp [Nat.mod_eq_of_lt hlt]

/-- C10 (witness): concrete instantiation of `Receive_counter_increment`
at a reactor whose counter for `"a"` is 5, receiving from `"a"`; the
counter becomes 6, and the counter of `"b"` is untouched. -/
theorem Receive_counter_increment_witness :
    (Receive (⟨fun k => if k = "a" then some 5 else none, 1000⟩ : PEXReactor) []
        ⟨⟨"a", "h", 1⟩, true⟩ [1]).1.msgCountByPeer "a" = some 6 ∧
    (Receive (⟨fun k => if k = "a" then some 5 else none, 1000⟩ : PEXReactor) []
        ⟨⟨"a", "h", 1⟩, true⟩ [1]).1.msgCountByPeer "b" = none := by
  constructor
  · exact (Receive_counter_increment ⟨fun k => if k = "a" then some 5 else none, 1000⟩ []
      ⟨⟨"a", "h", 1⟩, true⟩ [1]).2.2 5 rfl (by decide)
  · exact (Receive_counter_increment ⟨fun k => if k = "a" then some 5 else none, 1000⟩ []
      ⟨⟨"a", "h", 1⟩, true⟩ [1]).2.1 "b" (by decide)

/-- C2 (counterexample): the claim says `DecodeMessage` returns an error
on input of length 0 and never panics. The source reads `bz[0]` before
anything else, which on an empty slice is an out-of-range index — a Go
runtime panic, not an error return. -/
theorem DecodeMessage_empty_counterexample :
    DecodeMessage [] = DecodeOutcome.panicked ∧
      DecodeMessage [] ≠ DecodeOutcome.errored := by
  decide

/-- C2 (amended): on empty input `DecodeMessage` panics (out-of-range
index on `bz[0]`); on every nonempty input longer than 1,048,576 bytes
it returns a decode error; on every nonempty input whose first byte is
neither 0x01 nor 0x02 it returns a decode error. `DecodeMessage` is a
pure byte-to-outcome transform, so no external state is mutated either
way. The oversized and unknown-tag branches are spec-modelled
(`wire.ReadBinary` is external to src/). -/
theorem DecodeMessage_total_spec (bz : List Nat) :
    (bz = [] → DecodeMessage bz = DecodeOutcome.panicked) ∧
    (bz ≠ [] → maxPexMessageSize < bz.length → DecodeMessage bz = DecodeOutcome.errored) ∧
    (∀ b rest, bz = b :: rest → b ≠ msgTypeRequest → b ≠ msgTypeAddrs →
      DecodeMessage bz = DecodeOutcome.errored) := by
  refine ⟨?_, ?_, ?_⟩
  · intro h; subst h; rfl
  · intro hne hlen
    cases bz with
    | nil => exact absurd rfl hne
    | cons b rest =>
      simp only [DecodeMessage]
      rw [if_pos hlen]
  · intro b rest hbz hb1 hb2
    subst hbz
    by_cases hlen : maxPexMessageSize < (b :: rest).length <;>
      simp [DecodeMessage, hlen, hb1, hb2]

/-- C2 (witness): concrete instantiations of `DecodeMessage_total_spec`:
empty input panics, a 1,048,577-byte input errors, tag byte 3 errors. -/
theorem DecodeMessage_total_spec_witness :
    DecodeMessage [] = DecodeOutcome.panicked ∧
    DecodeMessage (List.replicate 1048577 1) = DecodeOutcome.errored ∧
    DecodeMessage [3] = DecodeOutcome.errored := by
  refine ⟨(DecodeMessage_total_spec []).1 rfl, ?_, ?_⟩
  · refine (DecodeMessage_total_spec (List.replicate 1048577 1)).2.1 ?_ ?_
    · intro h
      have hlen := congrArg List.length h
      rw [List.length_replicate] at hlen
      exact absurd hlen (by decide)
    · rw [List.length_replicate]
      decide
  · exact (DecodeMessage_total_spec [3]).2.2 3 [] rfl (by decide) (by decide)

/-- C3: when `Receive` accepts (is not rate-limiting) a message that
decodes to the Addrs variant `[A, null, B]`, its effects are exactly
`AddAddress(A, srcAddr)` and `AddAddress(B, srcAddr)` with the sender's
own address as discovery source; the null entry is skipped and nothing
else reaches the address book. -/
theorem Receive_addrs_filters_nil (r : PEXReactor) (sel : List (Option NetAddress))
    (src : Peer) (bz : List Nat) (A B : NetAddress)
    (hacc : ReachedMaxMsgCountForPeer (IncrementMsgCountForPeer r src.netAddress.id)
      src.netAddress.id = some false)
    (hdec : DecodeMessage bz =
      DecodeOutcome.decoded msgTypeAddrs (PexMessage.pexAddrsMessage [some A, none, some B])) :
    (Receive r sel src bz).2 =
      ([PexEffect.addAddress A src.netAddress, PexEffect.addAddress B src.netAddress],
        ReceiveOutcome.handled) := by
  rw [reachedMax_after_increment] at hacc
  have hlt : ¬ r.maxMsgCountByPeer ≤ ((r.msgCountByPeer src.netAddress.id).getD 0 + 1) % 65536 := by
    intro hc
    rw [decide_eq_true hc] at hacc
    exact Bool.noConfusion (Option.some.inj hacc)
  rw [Receive_snd, if_neg hlt, hdec]
  simp [List.filterMap]

/-- C3 (witness): concrete instantiation of `Receive_addrs_filters_nil`
at a fresh reactor (threshold 1000) and a wire message carrying
`[A, null, B]` with `A = ("a","h",1)` and `B = ("b","h",2)`. -/
theorem Receive_addrs_filters_nil_witness :
    (Receive (⟨fun _ => none, 1000⟩ : PEXReactor) [] ⟨⟨"s", "h", 9⟩, true⟩
        [2, 3, 1, 1, 97, 1, 104, 0, 1, 0, 1, 1, 98, 1, 104, 0, 2]).2 =
      ([PexEffect.addAddress ⟨"a", "h", 1⟩ ⟨"s", "h", 9⟩,
        PexEffect.addAddress ⟨"b", "h", 2⟩ ⟨"s", "h", 9⟩],
        ReceiveOutcome.handled) :=
  Receive_addrs_filters_nil (⟨fun _ => none, 1000⟩ : PEXReactor) [] ⟨⟨"s", "h", 9⟩, true⟩
    [2, 3, 1, 1, 97, 1, 104, 0, 1, 0, 1, 1, 98, 1, 104, 0, 2] ⟨"a", "h", 1⟩ ⟨"b", "h", 2⟩
    (by decide) (by decide)

/-- C1 (counterexample): the claim says the first `N` messages from a
peer within a window are processed and the `(N+1)`-th is dropped. With
threshold `N = 2` and a fresh window, the source increments the counter
before comparing with `>=`, so the second message — not the third — is
already dropped (no reply, no address-book effect). -/
theorem Receive_rate_limit_counterexample :
    (Receive (⟨fun _ => none, 2⟩ : PEXReactor) [] ⟨⟨"a", "h", 1⟩, true⟩ [1]).2 =
      ([PexEffect.send "a" (PexMessage.pexAddrsMessage [])], ReceiveOutcome.handled) ∧
    (Receive (Receive (⟨fun _ => none, 2⟩ : PEXReactor) [] ⟨⟨"a", "h", 1⟩, true⟩ [1]).1
        [] ⟨⟨"a", "h", 1⟩, true⟩ [1]).2 = ([], ReceiveOutcome.dropped) := by
  decide

/-- C1 (amended): with threshold `N` (`1 ≤ N ≤ 65535`), starting a flush
window with no counter entry for peer `p`, the first `N - 1` messages
from `p` are processed (decoded and dispatched — here a Request is
answered with the selection), the `N`-th message is dropped with no
reply and no address-book mutation, and a message from any other peer
`q` in the same window is handled exactly as it would be from the start
of the window. -/
theorem Receive_rate_limit_spec (N : Nat) (hN1 : 1 ≤ N) (hN2 : N ≤ 65535)
    (p q : Peer) (hpq : q.netAddress.id ≠ p.netAddress.id)
    (sel sel2 : List (Option NetAddress)) (bz bz2 : List Nat)
    (hbz : DecodeMessage bz = DecodeOutcome.decoded msgTypeRequest PexMessage.pexRequestMessage)
    (r0 : PEXReactor) (hp : r0.msgCountByPeer p.netAddress.id = none)
    (hmax : r0.maxMsgCountByPeer = N) :
    (∀ k, k + 1 < N →
      (Receive (receiveIter sel p bz k r0) sel p bz).2 =
        ([PexEffect.send p.netAddress.id (PexMessage.pexAddrsMessage sel)],
          ReceiveOutcome.handled)) ∧
    (Receive (receiveIter sel p bz (N - 1) r0) sel p bz).2 = ([], ReceiveOutcome.dropped) ∧
    (∀ k, (Receive (receiveIter sel p bz k r0) sel2 q bz2).2 = (Receive r0 sel2 q bz2).2) := by
  refine ⟨?_, ?_, ?_⟩
  · intro k hk
    rw [Receive_snd, receiveIter_getD sel p bz r0 hp k (by omega), receiveIter_max, hmax,
      Nat.mod_eq_of_lt (by omega), if_neg (by omega), hbz]
  · rw [Receive_snd, receiveIter_getD sel p bz r0 hp (N - 1) (by omega), receiveIter_max, hmax]
    have hsub : N - 1 + 1 = N := by omega
    rw [hsub, Nat.mod_eq_of_lt (by omega), if_pos (le_refl N)]
  · intro k
    rw [Receive_snd, Receive_snd, receiveIter_other sel p bz k r0 q.netAddress.id hpq,
      receiveIter_max, hmax]

/-- C1 (witness): `Receive_rate_limit_spec` at `N = 2`, peers
`"a"` and `"b"`, fresh reactor: the 1st message from `"a"` is answered,
the 2nd is dropped with no effects, and a message from `"b"` after three
messages from `"a"` behaves as from a fresh window. -/
theorem Receive_rate_limit_spec_witness :
    (Receive (receiveIter [] ⟨⟨"a", "h", 1⟩, true⟩ [1] 0 (⟨fun _ => none, 2⟩ : PEXReactor))
        [] ⟨⟨"a", "h", 1⟩, true⟩ [1]).2 =
      ([PexEffect.send "a" (PexMessage.pexAddrsMessage [])], ReceiveOutcome.handled) ∧
    (Receive (receiveIter [] ⟨⟨"a", "h", 1⟩, true⟩ [1] 1 (⟨fun _ => none, 2⟩ : PEXReactor))
        [] ⟨⟨"a", "h", 1⟩, true⟩ [1]).2 = ([], ReceiveOutcome.dropped) ∧
    (Receive (receiveIter [] ⟨⟨"a", "h", 1⟩, true⟩ [1] 3 (⟨fun _ => none, 2⟩ : PEXReactor))
        [] ⟨⟨"b", "h", 1⟩, true⟩ [1]).2 =
      (Receive (⟨fun _ => none, 2⟩ : PEXReactor) [] ⟨⟨"b", "h", 1⟩, true⟩ [1]).2 := by
  refine ⟨?_, ?_, ?_⟩
  · exact (Receive_rate_limit_spec 2 (by decide) (by decide) ⟨⟨"a", "h", 1⟩, true⟩
      ⟨⟨"b", "h", 1⟩, true⟩ (by decide) [] [] [1] [1] (by decide)
      (⟨fun _ => none, 2⟩ : PEXReactor) rfl rfl).1 0 (by decide)
  · exact (Receive_rate_limit_spec 2 (by decide) (by decide) ⟨⟨"a", "h", 1⟩, true⟩
      ⟨⟨"b", "h", 1⟩, true⟩ (by decide) [] [] [1] [1] (by decide)
      (⟨fun _ => none, 2⟩ : PEXReactor) rfl rfl).2.1
  · exact (Receive_rate_limit_spec 2 (by decide) (by decide) ⟨⟨"a", "h", 1⟩, true⟩
      ⟨⟨"b", "h", 1⟩, true⟩ (by decide) [] [] [1] [1] (by decide)
      (⟨fun _ => none, 2⟩ : PEXReactor) rfl rfl).2.2 3

/-- C4: for every non-negative outbound-peer count `n`, the bias
computed by `ensurePeers` equals `min(n, 8) * 10 + 10`; it is 10 at
`n = 0`, 90 at `n = 8`, 90 (clamped) at `n = 12`, always lies in
`[10, 90]`, and is monotonically nondecreasing on `[0, 8]`. -/
theorem ensurePeers_bias_spec (n : Int) (hn : 0 ≤ n) :
    newBias n = min n 8 * 10 + 10 ∧
    newBias 0 = 10 ∧ newBias 8 = 90 ∧ newBias 12 = 90 ∧
    (10 ≤ newBias n ∧ newBias n ≤ 90) ∧
    (∀ m, 0 ≤ m → m ≤ n → n ≤ 8 → newBias m ≤ newBias n) := by
  refine ⟨?_, by decide, by decide, by decide, ⟨?_, ?_⟩, ?_⟩
  · simp only [newBias, MinInt, min_def]
    split <;> split <;> omega
  · simp only [newBias, MinInt]
    split <;> omega
  · simp only [newBias, MinInt]
    split <;> omega
  · intro m hm1 hm2 hn8
    simp only [newBias, MinInt]
    split <;> split <;> omega

/-- C4 (witness): `ensurePeers_bias_spec` at `n = 5`: the formula, the
range, and monotonicity from `m = 3`. -/
theorem ensurePeers_bias_spec_witness :
    newBias 5 = min 5 8 * 10 + 10 ∧ (10 ≤ newBias 5 ∧ newBias 5 ≤ 90) ∧
      newBias 3 ≤ newBias 5 := by
  refine ⟨(ensurePeers_bias_spec 5 (by decide)).1,
    (ensurePeers_bias_spec 5 (by decide)).2.2.2.2.1,
    (ensurePeers_bias_spec 5 (by decide)).2.2.2.2.2 3 (by decide) (by decide) (by decide)⟩

/-- C5: whenever the switch reports `outbound + dialing ≥ 10`
(`minNumOutboundPeers`), one `ensurePeers` pass returns right after
computing the deficit and produces no effects at all — no dial attempts,
no request to a peer, no seed dialing — and, since the result is the
same for every address book view, it draws no addresses from the book. -/
theorem ensurePeers_no_dialing_when_satisfied (sw : SwitchView) (book : BookView)
    (seeds : List String) (randInt : Nat)
    (h : minNumOutboundPeers ≤ sw.numOutPeers + sw.numDialing) :
    ensurePeers sw book seeds randInt = [] := by
  unfold ensurePeers
  dsimp only
  rw [if_pos]
  simp only [minNumOutboundPeers] at h ⊢
  omega

/-- C5 (witness): `ensurePeers_no_dialing_when_satisfied` with 10
outbound peers and a book holding addresses: no effects. -/
theorem ensurePeers_no_dialing_when_satisfied_witness :
    ensurePeers ⟨10, 0, 0, fun _ => false, fun _ => false, []⟩
      ⟨fun _ _ => some ⟨"x", "h", 1⟩, true⟩ ["seed"] 0 = [] :=
  ensurePeers_no_dialing_when_satisfied ⟨10, 0, 0, fun _ => false, fun _ => false, []⟩
    ⟨fun _ _ => some ⟨"x", "h", 1⟩, true⟩ ["seed"] 0 (by decide)

/-- C8: `AddPeer` on an outbound peer sends exactly one Request message
to it when the book needs more addresses and does nothing when it does
not; `AddPeer` on an inbound peer always registers the peer's own
address with itself as the discovery source. -/
theorem AddPeer_spec (needMoreAddrs : Bool) (p : Peer) :
    (p.isOutbound = true → needMoreAddrs = true →
      AddPeer needMoreAddrs p =
        [PexEffect.send p.netAddress.id PexMessage.pexRequestMessage]) ∧
    (p.isOutbound = true → needMoreAddrs = false → AddPeer needMoreAddrs p = []) ∧
    (p.isOutbound = false →
      AddPeer needMoreAddrs p = [PexEffect.addAddress p.netAddress p.netAddress]) := by
  refine ⟨?_, ?_, ?_⟩ <;> intro h <;> simp [AddPeer, h]

/-- C8 (witness): `AddPeer_spec` at an outbound peer with and without
`NeedMoreAddrs`, and at an inbound peer. -/
theorem AddPeer_spec_witness :
    AddPeer true ⟨⟨"o", "h", 1⟩, true⟩ =
      [PexEffect.send "o" PexMessage.pexRequestMessage] ∧
    AddPeer false ⟨⟨"o", "h", 1⟩, true⟩ = [] ∧
    AddPeer true ⟨⟨"i", "h", 2⟩, false⟩ =
      [PexEffect.addAddress ⟨"i", "h", 2⟩ ⟨"i", "h", 2⟩] :=
  ⟨(AddPeer_spec true ⟨⟨"o", "h", 1⟩, true⟩).1 rfl rfl,
    (AddPeer_spec false ⟨⟨"o", "h", 1⟩, true⟩).2.1 rfl rfl,
    (AddPeer_spec true ⟨⟨"i", "h", 2⟩, false⟩).2.2 rfl⟩

/-- C9: with the base reactor started successfully, `OnStart` fails
(spawning nothing) exactly when the address book's `Start()` fails
with an error other than `ErrAlreadyStarted`, propagating that error;
when `Start()` succeeds or reports already-started, `OnStart` spawns
both the ensure-peers loop and the counter-flush loop and succeeds. -/
theorem OnStart_spec (bookStart : Option ServiceError) :
    (∀ s, bookStart = some (ServiceError.other s) →
      OnStart none bookStart = Except.error (ServiceError.other s)) ∧
    ((bookStart = none ∨ bookStart = some ServiceError.alreadyStarted) →
      OnStart none bookStart = Except.ok (true, true)) := by
  constructor
  · intro s hs
    subst hs
    simp [OnStart]
  · rintro (h | h) <;> subst h <;> rfl

/-- C9 (witness): `OnStart_spec` at a failing book start, a clean book
start, and an already-started book. -/
theorem OnStart_spec_witness :
    OnStart none (some (ServiceError.other "db locked")) =
      Except.error (ServiceError.other "db locked") ∧
    OnStart none none = Except.ok (true, true) ∧
    OnStart none (some ServiceError.alreadyStarted) = Except.ok (true, true) :=
  ⟨(OnStart_spec (some (ServiceError.other "db locked"))).1 "db locked" rfl,
    (OnStart_spec none).2 (Or.inl rfl),
    (OnStart_spec (some ServiceError.alreadyStarted)).2 (Or.inr rfl)⟩

/-- One unfolding step of `pickLoop` at positive fuel. -/
theorem pickLoop_succ (pick : Nat → Option NetAddress) (isDialing connected : ID → Bool)
    (d : Int) (i fuel : Nat) (acc : List NetAddress) :
    pickLoop pick isDialing connected d i (fuel + 1) acc =
      if (acc.length : Int) < d then
        match pick i with
        | none => pickLoop pick isDialing connected d (i + 1) fuel acc
        | some t =>
          if acc.any fun a => decide (a.id = t.id) then
            pickLoop pick isDialing connected d (i + 1) fuel acc
          else if isDialing t.id then
            pickLoop pick isDialing connected d (i + 1) fuel acc
          else if connected t.id then
            pickLoop pick isDialing connected d (i + 1) fuel acc
          else
            pickLoop pick isDialing connected d (i + 1) fuel (acc ++ [t])
      else acc := rfl

/-- Loop invariant of the candidate-selection loop: the accumulated set
stays pairwise distinct by id and bounded by the deficit, and every
element either was already accumulated or stems from one draw made by
the remaining attempts, is not being dialed, and is not connected. -/
theorem pickLoop_invariant (pick : Nat → Option NetAddress) (isDialing connected : ID → Bool)
    (d : Int) :
    ∀ fuel i acc,
      acc.Pairwise (fun a b => a.id ≠ b.id) →
      (∀ a ∈ acc, isDialing a.id = false ∧ connected a.id = false) →
      (acc.length : Int) ≤ d →
      (pickLoop pick isDialing connected d i fuel acc).Pairwise (fun a b => a.id ≠ b.id) ∧
      ((pickLoop pick isDialing connected d i fuel acc).length : Int) ≤ d ∧
      ∀ a ∈ pickLoop pick isDialing connected d i fuel acc,
        (isDialing a.id = false ∧ connected a.id = false) ∧
        (a ∈ acc ∨ ∃ j, i ≤ j ∧ j < i + fuel ∧ pick j = some a) := by
  intro fuel
  induction fuel with
  | zero =>
    intro i acc h1 h2 h3
    exact ⟨h1, h3, fun a ha => ⟨h2 a ha, Or.inl ha⟩⟩
  | succ fuel ih =>
    intro i acc h1 h2 h3
    rw [pickLoop_succ]
    by_cases hlen : (acc.length : Int) < d
    · rw [if_pos hlen]
      cases hpick : pick i with
      | none =>
        obtain ⟨P1, P2, P3⟩ := ih (i + 1) acc h1 h2 h3
        refine ⟨P1, P2, fun a ha => ⟨(P3 a ha).1, ?_⟩⟩
        rcases (P3 a ha).2 with hin | ⟨j, hj1, hj2, hj3⟩
        · exact Or.inl hin
        · exact Or.inr ⟨j, by omega, by omega, hj3⟩
      | some t =>
        dsimp only
        by_cases hdup : (acc.any fun a => decide (a.id = t.id)) = true
        · rw [if_pos hdup]
          obtain ⟨P1, P2, P3⟩ := ih (i + 1) acc h1 h2 h3
          refine ⟨P1, P2, fun a ha => ⟨(P3 a ha).1, ?_⟩⟩
          rcases (P3 a ha).2 with hin | ⟨j, hj1, hj2, hj3⟩
          · exact Or.inl hin
          · exact Or.inr ⟨j, by omega, by omega, hj3⟩
        · rw [if_neg hdup]
          by_cases hdial : isDialing t.id = true
          · rw [if_pos hdial]
            obtain ⟨P1, P2, P3⟩ := ih (i + 1) acc h1 h2 h3
            refine ⟨P1, P2, fun a ha => ⟨(P3 a ha).1, ?_⟩⟩
            rcases (P3 a ha).2 with hin | ⟨j, hj1, hj2, hj3⟩
            · exact Or.inl hin
            · exact Or.inr ⟨j, by omega, by omega, hj3⟩
          · rw [if_neg hdial]
            by_cases hconn : connected t.id = true
            · rw [if_pos hconn]
              obtain ⟨P1, P2, P3⟩ := ih (i + 1) acc h1 h2 h3
              refine ⟨P1, P2, fun a ha => ⟨(P3 a ha).1, ?_⟩⟩
              rcases (P3 a ha).2 with hin | ⟨j, hj1, hj2, hj3⟩
              · exact Or.inl hin
              · exact Or.inr ⟨j, by omega, by omega, hj3⟩
            · rw [if_neg hconn]
              have hne : ∀ a ∈ acc, ¬(a.id = t.id) := by
                intro a ha hid
                exact hdup (List.any_eq_true.mpr ⟨a, ha, decide_eq_true hid⟩)
              have hdialf : isDialing t.id = false := by simpa using hdial
              have hconnf : connected t.id = false := by simpa using hconn
              have h1' : (acc ++ [t]).Pairwise (fun a b => a.id ≠ b.id) := by
                rw [List.pairwise_append]
                refine ⟨h1, by simp, ?_⟩
                intro a ha b hb
                rw [List.mem_singleton] at hb
                subst hb
                exact hne a ha
              have h2' : ∀ a ∈ acc ++ [t],
                  isDialing a.id = false ∧ connected a.id = false := by
                intro a ha
                rcases List.mem_append.mp ha with ha | ha
                · exact h2 a ha
                · rw [List.mem_singleton] at ha
                  subst ha
                  exact ⟨hdialf, hconnf⟩
              have h3' : ((acc ++ [t]).length : Int) ≤ d := by
                simp only [List.length_append, List.length_singleton]
                push_cast
                omega
              obtain ⟨P1, P2, P3⟩ := ih (i + 1) (acc ++ [t]) h1' h2' h3'
              refine ⟨P1, P2, fun a ha => ⟨(P3 a ha).1, ?_⟩⟩
              rcases (P3 a ha).2 with hin | ⟨j, hj1, hj2, hj3⟩
              · rcases List.mem_append.mp hin with hin | hin
                · exact Or.inl hin
                · rw [List.mem_singleton] at hin
                  subst hin
                  exact Or.inr ⟨i, Nat.le_refl i, by omega, hpick⟩
              · exact Or.inr ⟨j, by omega, by omega, hj3⟩
    · rw [if_neg hlen]
      exact ⟨h1, h3, fun a ha => ⟨h2 a ha, Or.inl ha⟩⟩

/-- The selection loop reads only the draws it has attempts for: two
pick sequences that agree on the attempted indices produce the same
`toDial` set. -/
theorem pickLoop_congr (pick pick2 : Nat → Option NetAddress) (isDialing connected : ID → Bool)
    (d : Int) :
    ∀ fuel i acc, (∀ j, i ≤ j → j < i + fuel → pick2 j = pick j) →
      pickLoop pick2 isDialing connected d i fuel acc =
        pickLoop pick isDialing connected d i fuel acc := by
  intro fuel
  induction fuel with
  | zero => intro i acc _; rfl
  | succ fuel ih =>
    intro i acc h
    have hpi : pick2 i = pick i := h i (Nat.le_refl i) (by omega)
    rw [pickLoop_succ, pickLoop_succ, hpi]
    by_cases hlen : (acc.length : Int) < d
    · rw [if_pos hlen, if_pos hlen]
      cases hpick : pick i with
      | none =>
        exact ih (i + 1) acc (fun j hj1 hj2 => h j (by omega) (by omega))
      | some t =>
        dsimp only
        split_ifs <;> exact ih (i + 1) _ (fun j hj1 hj2 => h j (by omega) (by omega))
    · rw [if_neg hlen, if_neg hlen]

/-- C6: with deficit `d > 0`, the `toDial` set built by one
`ensurePeers` pass holds at most `d` addresses, pairwise distinct by
peer id, none of which the switch reported as dialing or connected at
selection time, and each of which came from one of the draws; moreover
the loop consults at most `3 * d` draws (every iteration — also one
whose draw is rejected — consumes an attempt): any pick sequence
agreeing on the first `3 * d` draws yields the same set. -/
theorem ensurePeers_selection_spec (pick : Nat → Option NetAddress)
    (isDialing connected : ID → Bool) (d : Int) (hd : 0 < d) :
    ((ensurePeersToDial pick isDialing connected d).length : Int) ≤ d ∧
    (ensurePeersToDial pick isDialing connected d).Pairwise (fun a b => a.id ≠ b.id) ∧
    (∀ a ∈ ensurePeersToDial pick isDialing connected d,
      isDialing a.id = false ∧ connected a.id = false ∧
        ∃ j : Nat, (j : Int) < d * 3 ∧ pick j = some a) ∧
    (∀ pick2 : Nat → Option NetAddress,
      (∀ j : Nat, (j : Int) < d * 3 → pick2 j = pick j) →
      ensurePeersToDial pick2 isDialing connected d =
        ensurePeersToDial pick isDialing connected d) := by
  obtain ⟨P1, P2, P3⟩ :=
    pickLoop_invariant pick isDialing connected d (d * 3).toNat 0 []
      List.Pairwise.nil (by intro a ha; exact absurd ha (List.not_mem_nil a))
      (by simp; omega)
  refine ⟨P2, P1, ?_, ?_⟩
  · intro a ha
    obtain ⟨⟨hdialf, hconnf⟩, hsrc⟩ := P3 a ha
    rcases hsrc with hin | ⟨j, _, hj2, hj3⟩
    · exact absurd hin (List.not_mem_nil a)
    · exact ⟨hdialf, hconnf, j, by omega, hj3⟩
  · intro pick2 hagree
    exact pickLoop_congr pick pick2 isDialing connected d (d * 3).toNat 0 []
      (fun j _ hj => hagree j (by omega))

/-- C6 (witness): `ensurePeers_selection_spec` with deficit 2 and a pick
sequence that always returns the same fresh address: the set is bounded
by the deficit, pairwise distinct, and its single member is neither
dialing nor connected and stems from one of the six draws. -/
theorem ensurePeers_selection_spec_witness :
    ((ensurePeersToDial (fun _ => some ⟨"x", "h", 1⟩) (fun _ => false) (fun _ => false)
        2).length : Int) ≤ 2 ∧
    (ensurePeersToDial (fun _ => some ⟨"x", "h", 1⟩) (fun _ => false) (fun _ => false)
        2).Pairwise (fun a b => a.id ≠ b.id) ∧
    ((fun _ => false : ID → Bool) (⟨"x", "h", 1⟩ : NetAddress).id = false ∧
      (fun _ => false : ID → Bool) (⟨"x", "h", 1⟩ : NetAddress).id = false ∧
      ∃ j : Nat, (j : Int) < 2 * 3 ∧
        (fun _ => some (⟨"x", "h", 1⟩ : NetAddress)) j = some ⟨"x", "h", 1⟩) := by
  refine ⟨(ensurePeers_selection_spec (fun _ => some ⟨"x", "h", 1⟩) (fun _ => false)
      (fun _ => false) 2 (by decide)).1,
    (ensurePeers_selection_spec (fun _ => some ⟨"x", "h", 1⟩) (fun _ => false)
      (fun _ => false) 2 (by decide)).2.1,
    (ensurePeers_selection_spec (fun _ => some ⟨"x", "h", 1⟩) (fun _ => false)
      (fun _ => false) 2 (by decide)).2.2.1 ⟨"x", "h", 1⟩ (by decide)⟩

/-- Dial effects are never seed-dial effects. -/
theorem countP_dialSeeds_map_dialPeer (l : List NetAddress) :
    (l.map PexEffect.dialPeer).countP isDialSeedsEffect = 0 := by
  induction l with
  | nil => rfl
  | cons x xs ih => simp [List.countP_cons, ih, isDialSeedsEffect]

/-- The optional request-to-a-random-peer effect is never a seed-dial
effect. -/
theorem countP_dialSeeds_request (b : Bool) (x : Option Peer) :
    (if b then
        match x with
        | some peer => [PexEffect.send peer.netAddress.id PexMessage.pexRequestMessage]
        | none => []
      else []).countP isDialSeedsEffect = 0 := by
  cases b <;> cases x <;> rfl

/-- C7: one `ensurePeers` pass dials the configured seed list exactly
once if the outbound, inbound and dialing counts and the freshly
computed `toDial` set are all zero/empty, and does not dial the seeds at
all otherwise. -/
theorem ensurePeers_seed_fallback_spec (sw : SwitchView) (book : BookView)
    (seeds : List String) (randInt : Nat) :
    (ensurePeers sw book seeds randInt).countP isDialSeedsEffect =
      if sw.numOutPeers = 0 ∧ sw.numInPeers = 0 ∧ sw.numDialing = 0 ∧
          ensurePeersToDial (book.pickAddress (newBias (sw.numOutPeers : Int)))
            sw.isDialing sw.peersHas
            ((minNumOutboundPeers : Int) -
              ((sw.numOutPeers : Int) + (sw.numDialing : Int))) = []
        then 1 else 0 := by
  unfold ensurePeers
  dsimp only
  by_cases h : (minNumOutboundPeers : Int) -
      ((sw.numOutPeers : Int) + (sw.numDialing : Int)) ≤ 0
  · have hc : ¬(sw.numOutPeers = 0 ∧ sw.numInPeers = 0 ∧ sw.numDialing = 0 ∧
        ensurePeersToDial (book.pickAddress (newBias (sw.numOutPeers : Int)))
          sw.isDialing sw.peersHas
          ((minNumOutboundPeers : Int) -
            ((sw.numOutPeers : Int) + (sw.numDialing : Int))) = []) := by
      rintro ⟨h1, -, h3, -⟩
      rw [h1, h3] at h
      simp only [minNumOutboundPeers] at h
      omega
    rw [if_pos h, if_neg hc]
    rfl
  · rw [if_neg h, List.countP_append, List.countP_append,
      countP_dialSeeds_map_dialPeer, countP_dialSeeds_request]
    by_cases hs : sw.numOutPeers + sw.numInPeers + sw.numDialing +
        (ensurePeersToDial (book.pickAddress (newBias (sw.numOutPeers : Int)))
          sw.isDialing sw.peersHas
          ((minNumOutboundPeers : Int) -
            ((sw.numOutPeers : Int) + (sw.numDialing : Int)))).length = 0
    · have h4 : ensurePeersToDial (book.pickAddress (newBias (sw.numOutPeers : Int)))
          sw.isDialing sw.peersHas
          ((minNumOutboundPeers : Int) -
            ((sw.numOutPeers : Int) + (sw.numDialing : Int))) = [] :=
        List.length_eq_zero.mp (by omega)
      rw [if_pos hs, if_pos ⟨by omega, by omega, by omega, h4⟩]
      rfl
    · have hc : ¬(sw.numOutPeers = 0 ∧ sw.numInPeers = 0 ∧ sw.numDialing = 0 ∧
          ensurePeersToDial (book.pickAddress (newBias (sw.numOutPeers : Int)))
            sw.isDialing sw.peersHas
            ((minNumOutboundPeers : Int) -
              ((sw.numOutPeers : Int) + (sw.numDialing : Int))) = []) := by
        rintro ⟨h1, h2, h3, h4⟩
        apply hs
        rw [h4, h1, h2, h3]
        rfl
      rw [if_neg hs, if_neg hc]
      rfl
